import Mathlib

/-!
Verification of the Winpatable repository compatibility-catalog spec
against the source code.

The development shallowly embeds the relevant Python code:

* `WinpatableAI.suggest_installation_order` (src/src/core/ai_assistant.py,
  lines 507-532): a while-loop over a `remaining` set that repeatedly moves
  eligible keys into an `ordered` list.  The loop is embedded with explicit
  fuel counting the outer `while` iterations (`resolveLoop`), one inner pass
  over the snapshot `list(remaining)` being `passStep`.
* `ApplicationInstaller.configure_registry`
  (src/src/installers/app_installers.py, lines 72-99): registry-file
  serialization, embedded as a list of emitted lines (`regLines`), with
  the Python zero-padded-hex format specifier embedded as `pyFmt08x`.
* `setup_environment` (src/scripts/launcher.py in the Winpatable- subtree, lines 13-33):
  environment composition over a process environment modelled as
  `String → Option String`.
* `ApplicationManager.get_installer` together with
  `ApplicationInstaller.__init__` (app_installers.py): catalog lookup with
  its directory-creation side effect, modelled with an explicit effect trace.
* `WinpatableUI.cmd_install_app` (src/src/winpatable.py, lines 159-175) and
  `main` (lines 819-829): the CLI install command, with its message list,
  effect trace, and process exit code.
* The installer `install` methods (app_installers.py): step sequencing,
  embedded as traces of `Step`s driven by an oracle `StepEnv` recording
  subprocess spawn success and exit codes.
-/

/-! ## Dependency resolver (ai_assistant.py, suggest_installation_order) -/

/-- The hard-coded dependency table of `suggest_installation_order`
(ai_assistant.py lines 509-519), in declaration order. -/
def winpatableDepsTable : List (String × List String) :=
  [("dotnet48", []),
   ("vcrun2019", []),
   ("office", ["dotnet48", "vcrun2019"]),
   ("visio", ["office"]),
   ("sharepoint", ["office"]),
   ("powerbi", ["dotnet48"]),
   ("tableau", ["dotnet48"]),
   ("quickbooks", ["dotnet48"]),
   ("turbotax", ["dotnet48"])]

/-- The Python `deps.get(app, [])`: look an application key up in a dependency
table, defaulting to the empty list. -/
def depsGet (deps : List (String × List String)) (app : String) : List String :=
  match deps.find? (fun p => p.1 == app) with
  | some p => p.2
  | none => []

/-- The Python `set(apps)` construction, as the duplicate-free list of keys.
`seen` accumulates the keys already kept. -/
def dedupFirstAux (seen : List String) : List String → List String
  | [] => []
  | a :: t => if a ∈ seen then dedupFirstAux seen t else a :: dedupFirstAux (a :: seen) t

/-- The requested set `remaining = set(apps)` (ai_assistant.py line 522),
represented as the input list with duplicates removed. -/
def pySet (l : List String) : List String := dedupFirstAux [] l

/-- One inner pass of the resolver loop (ai_assistant.py lines 525-529):
`for app in list(remaining)` over the snapshot, appending each eligible key
to `ordered` and erasing it from `remaining`.  Eligibility is the source
`all(d in ordered or d not in remaining for d in deps.get(app, []))`. -/
def passStep (deps : List (String × List String)) :
    List String → List String → List String → List String × List String
  | [], ordered, remaining => (ordered, remaining)
  | a :: rest, ordered, remaining =>
      if ∀ d ∈ depsGet deps a, d ∈ ordered ∨ d ∉ remaining then
        passStep deps rest (ordered ++ [a]) (remaining.erase a)
      else
        passStep deps rest ordered remaining

/-- The outer `while remaining:` loop (ai_assistant.py line 524), with `fuel`
bounding the number of outer iterations; `none` means the loop has not
terminated within `fuel` iterations. -/
def resolveLoop (deps : List (String × List String)) :
    Nat → List String → List String → Option (List String)
  | _, ordered, [] => some ordered
  | 0, _, _ => none
  | fuel + 1, ordered, remaining =>
      resolveLoop deps fuel (passStep deps remaining ordered remaining).1
        (passStep deps remaining ordered remaining).2

/-- Embedding of `WinpatableAI.suggest_installation_order(apps)` (ai_assistant.py lines
507-532), with explicit fuel for the outer while-loop. -/
def suggest_installation_order (fuel : Nat) (apps : List String) :
    Option (List String) :=
  resolveLoop winpatableDepsTable fuel [] (pySet apps)

/-- The spec synthetic cyclic dependency graph `{a: {b}, b: {a}}`
(spec section 8, cycle-detection test). -/
def specCycleGraph : List (String × List String) := [("a", ["b"]), ("b", ["a"])]

/-- Index of the first occurrence of `x` in `l` (length of `l` when absent). -/
def idxOfS : List String → String → Nat
  | [], _ => 0
  | a :: t, x => if a = x then 0 else idxOfS t x + 1

/-- The topological-order invariant of the resolver: every declared
dependency of an already-ordered key that belongs to the request `req`
is itself ordered, strictly earlier. -/
def DepsRespected (deps : List (String × List String)) (req ordered : List String) : Prop :=
  ∀ e ∈ ordered, ∀ d ∈ depsGet deps e, d ∈ req →
    d ∈ ordered ∧ idxOfS ordered d < idxOfS ordered e

/-! ## Registry serialization (app_installers.py, configure_registry) -/

/-- A registry value as handled by `configure_registry` (app_installers.py
lines 83-87): the source writes `str` values quoted and `int` values as
dwords, and silently skips any other type. -/
inductive RegValue where
  | str : String → RegValue
  | int : Int → RegValue
deriving DecidableEq

/-- Lowercase hexadecimal digit characters, as produced by the Python `x`
format type. -/
def hexDigitChar (n : Nat) : Char :=
  if n < 10 then Char.ofNat (48 + n) else Char.ofNat (87 + n)

/-- Hexadecimal digits of `n`, most significant first, with explicit fuel
(empty for `n = 0`; the caller pads). -/
def hexCharsAux : Nat → Nat → List Char
  | 0, _ => []
  | fuel + 1, n =>
      if n = 0 then [] else hexCharsAux fuel (n / 16) ++ [hexDigitChar (n % 16)]

/-- Hexadecimal digits of `n`; fuel `n + 1` always suffices since the number
of base-16 digits of `n` is at most `n + 1`. -/
def hexChars (n : Nat) : List Char := hexCharsAux (n + 1) n

/-- Zero-padding on the left to width `w` (no truncation). -/
def padZeros (w : Nat) (cs : List Char) : List Char :=
  List.replicate (w - cs.length) '0' ++ cs

/-- The Python format specifier `08x` applied to an arbitrary Python integer:
lowercase hexadecimal, zero-padded to total width 8, the sign counting
toward the width for negative inputs. -/
def pyFmt08x (v : Int) : String :=
  if v < 0 then String.mk ('-' :: padZeros 7 (hexChars (-v).toNat))
  else String.mk (padZeros 8 (hexChars v.toNat))

/-- Whether a character is a lowercase hexadecimal digit. -/
def isHexLowerChar (c : Char) : Bool :=
  c.isDigit || ('a' ≤ c && c ≤ 'f')

/-- One emitted value line (app_installers.py lines 84-87): string values as
`"name"="value"`, integer values as `"name"=dword:` followed by the
zero-padded hexadecimal rendering. -/
def valueLine (k : String) (v : RegValue) : String :=
  match v with
  | RegValue.str s => "\"" ++ k ++ "\"=\"" ++ s ++ "\""
  | RegValue.int n => "\"" ++ k ++ "\"=dword:" ++ pyFmt08x n

/-- The lines emitted for one registry path (app_installers.py lines 82-87):
the bracketed path, then one line per value in mapping order. -/
def sectionLines (p : String) (vs : List (String × RegValue)) : List String :=
  ("[" ++ p ++ "]") :: vs.map (fun kv => valueLine kv.1 kv.2)

/-- Body lines of the registry file, one section per registry path. -/
def regBody : List (String × List (String × RegValue)) → List String
  | [] => []
  | (p, vs) :: t => sectionLines p vs ++ regBody t

/-- All lines of the file written by `configure_registry` (app_installers.py
lines 79-87): the `REGEDIT4` header, a blank line, then the sections.  The
file text is each line followed by a newline. -/
def regLines (tweaks : List (String × List (String × RegValue))) : List String :=
  "REGEDIT4" :: "" :: regBody tweaks

/-- The full text written to `tweaks.reg`. -/
def configure_registry_text (tweaks : List (String × List (String × RegValue))) : String :=
  String.join ((regLines tweaks).map (fun l => l ++ "\n"))

/-! ## Environment composer (scripts/launcher.py, setup_environment) -/

/-- One Python dictionary assignment `env[k] = v` on an environment mapping. -/
def setVar (e : String → Option String) (k v : String) : String → Option String :=
  fun x => if x = k then some v else e x

/-- Sequential assignments, in order; later assignments win. -/
def applyPairs (e : String → Option String) :
    List (String × String) → (String → Option String)
  | [] => e
  | (k, v) :: t => applyPairs (setVar e k v) t

/-- The value the last assignment to `k` in the list would give, if any. -/
def lookupLast : List (String × String) → String → Option String
  | [], _ => none
  | (a, v) :: t, k =>
      match lookupLast t k with
      | some w => some w
      | none => if a = k then some v else none

/-- The fixed baseline assignments of `setup_environment` (launcher.py lines
17-22), in source order. -/
def launcherBaseline (pfx : String) : List (String × String) :=
  [("WINEPREFIX", pfx), ("WINEARCH", "win64"), ("DXVK_HUD", "off"),
   ("STAGING_SHARED_MEMORY", "1"), ("DXVK_NUM_COMPILER_THREADS", "4"),
   ("vblank_mode", "0")]

/-- Embedding of `setup_environment(wine_prefix, app_config)` (launcher.py lines 13-33):
copy the process environment, assign the baseline, overlay the application
environment variables, then, when the `proton` directory under the prefix
exists on disk, prepend it to `PATH`. -/
def setup_environment (procEnv : String → Option String) (pfx : String)
    (overlay : List (String × String)) (protonDirExists : Bool) :
    String → Option String :=
  let e1 := applyPairs procEnv (launcherBaseline pfx)
  let e2 := applyPairs e1 overlay
  if protonDirExists then
    setVar e2 "PATH" (pfx ++ "/proton:" ++ (e2 "PATH").getD "")
  else e2

/-! ## Catalog lookup (app_installers.py, ApplicationManager) -/

/-- Observable side effects of the embedded operations. -/
inductive Effect where
  | mkdirAll : String → Effect
  | fileWrite : String → Effect
  | spawn : String → Effect
deriving DecidableEq

/-- ASCII lowering of one character, the restriction of the Python
`str.lower()` used on catalog keys (all keys are ASCII). -/
def asciiLowerChar (c : Char) : Char :=
  if 'A' ≤ c && c ≤ 'Z' then Char.ofNat (c.toNat + 32) else c

/-- ASCII lowering of a string. -/
def asciiLower (s : String) : String := String.mk (s.data.map asciiLowerChar)

/-- The keys of `ApplicationManager.APPLICATIONS` (app_installers.py lines
1929-1988), in declaration order. -/
def APPLICATIONS_KEYS : List String :=
  ["premiere", "vegas", "3dsmax", "office",
   "audition", "cubase", "ableton", "protools", "reason",
   "autocad", "solidworks", "fusion360", "arcgis",
   "photoshop", "lightroom", "illustrator", "aftereffects", "indesign",
   "revit", "sketchbook", "3dprinting", "superslicer",
   "coreldraw", "corelpainter",
   "teams", "copilot", "access", "visio", "sharepoint", "powerbi",
   "visualstudio", "jetbrains", "notepad++",
   "paintnet", "figma",
   "unity", "unreal", "eaapp",
   "quickbooks", "turbotax", "tableau",
   "itunes", "dropbox", "googledrive", "wordpress", "notion", "grammarly",
   "virtualdub", "avisynth", "vobsub",
   "valorant", "r6siege", "battleye", "sharex", "hwmonitor"]

/-- Embedding of `ApplicationManager.get_installer(app_name)` (app_installers.py lines
2002-2007) together with `ApplicationInstaller.__init__` (lines 34-38):
lowercase the name, look it up in `APPLICATIONS`, and on a hit construct
the installer, whose initializer runs
`applications_dir.mkdir(parents=True, exist_ok=True)`.  The result is the
matched catalog key (standing for the constructed installer) paired with
the effect trace of the call. -/
def get_installer (pfx app : String) : Option String × List Effect :=
  if asciiLower app ∈ APPLICATIONS_KEYS then
    (some (asciiLower app), [Effect.mkdirAll (pfx ++ "/applications")])
  else (none, [])

/-! ## Installer step sequencing (app_installers.py, install methods) -/

/-- The four installer sub-steps of spec section 4.3. -/
inductive Step where
  | sysDeps | dlls | registry | vendorRun
deriving DecidableEq

/-- Oracle for the outcomes of the external-world interactions of one
`install` call: whether each subprocess could be spawned (a failed spawn
raises inside the step, where it is caught), the relevant exit codes, and
whether the supplied vendor-installer path exists. -/
structure StepEnv where
  aptSpawnOk : Bool
  aptExitCode : Int
  winetricksSpawnOk : Bool
  regWriteOk : Bool
  regeditSpawnOk : Bool
  wineSpawnOk : Bool
  wineExitCode : Int
  installerPathExists : Bool
deriving DecidableEq

/-- Embedding of `DistroUtils.install_packages` (distro_utils.py lines 108-126): returns
true for an empty list; otherwise true exactly when the package-manager
subprocess spawned and exited 0; a spawn failure is caught and yields
false. -/
def DistroUtils_install_packages (packages : List String) (e : StepEnv) : Bool :=
  if packages.isEmpty then true
  else if e.aptSpawnOk then decide (e.aptExitCode = 0) else false

/-- Embedding of `ApplicationInstaller.install_required_dlls` (app_installers.py lines
56-70): one `winetricks` subprocess per component with `check=False`, so
component exit codes are ignored; returns true unless a spawn raised, in
which case the exception is caught and false returned. -/
def install_required_dlls (dllList : List String) (e : StepEnv) : Bool :=
  e.winetricksSpawnOk

/-- Embedding of `ApplicationInstaller.configure_registry` (app_installers.py lines
72-99) as a step: writes `tweaks.reg` and spawns `regedit` with
`check=False`; returns true unless the write or the spawn raised. -/
def configure_registry (tweaks : List (String × List (String × RegValue)))
    (e : StepEnv) : Bool :=
  e.regWriteOk && e.regeditSpawnOk

/-- Embedding of `ApplicationInstaller.run_with_wine` (app_installers.py lines 40-54):
spawns `wine` with `check=False` and returns true unless the spawn raised;
the exit code of the subprocess is never consulted. -/
def run_with_wine (executable : String) (e : StepEnv) : Bool :=
  e.wineSpawnOk

/-- The guarded four-step `install` body shared by the fifteen path-taking
installers whose system-dependency step is `DistroUtils.install_packages`
(premiere, vegas, 3dsmax, office, photoshop, lightroom, illustrator,
aftereffects, revit, sketchbook, coreldraw, corelpainter, teams, copilot,
access; e.g. `AdobePremiereInstaller.install`, app_installers.py lines
130-154): system packages, DLLs, registry, then the vendor installer when
the path exists.  Each of these steps catches its own errors, so every
step result is a boolean, discarded by the body, and `true` is returned.
The other nine path-taking installers use an unguarded system-dependency
loop instead: see `sudoLoopInstall`. -/
def fourStepInstall (sysPkgs dllList : List String)
    (tweaks : List (String × List (String × RegValue))) (ipath : String)
    (e : StepEnv) : Bool × List Step :=
  let _r1 := DistroUtils_install_packages sysPkgs e
  let _r2 := install_required_dlls dllList e
  let _r3 := configure_registry tweaks e
  if e.installerPathExists then
    let _r4 := run_with_wine ipath e
    (true, [Step.sysDeps, Step.dlls, Step.registry, Step.vendorRun])
  else
    (true, [Step.sysDeps, Step.dlls, Step.registry])

/-- The DLL-only `install` body shared by most path-less installers
(e.g. `NoteplusPlusInstaller.install`, app_installers.py lines 1221-1229):
only the DLL step runs, and `true` is returned.  Seven path-less entries
(figma, googledrive, grammarly, wordpress, notion, vobsub, hwmonitor)
execute no step at all: see `noStepInstall`. -/
def dllOnlyInstall (dllList : List String) (e : StepEnv) : Bool × List Step :=
  let _r := install_required_dlls dllList e
  (true, [Step.dlls])

/-- Embedding of `NoteplusPlusInstaller.install` (catalog key `notepad++`). -/
def noteplusplusInstall (e : StepEnv) : Bool × List Step :=
  dllOnlyInstall ["dotnet48"] e

/-- Embedding of `ValorantInstaller.install` (app_installers.py lines 1889-1897): runs
the DLL step and then returns `false` unconditionally. -/
def valorantInstall (e : StepEnv) : Bool × List Step :=
  let _r := install_required_dlls ["vcrun2019", "dxvk"] e
  (false, [Step.dlls])

/-- A step-outcome oracle on which every external interaction succeeds and
the vendor installer path exists. -/
def envAllOk : StepEnv := ⟨true, 0, true, true, true, true, 0, true⟩

/-- A step-outcome oracle on which every subprocess spawn fails and every
exit code is nonzero, with the vendor installer path existing. -/
def envAllFail : StepEnv := ⟨false, 1, false, false, false, false, 1, true⟩

/-- The registry tweaks of `AdobePremiereInstaller.CONFIG` (app_installers.py
lines 104-127). -/
def premiereTweaks : List (String × List (String × RegValue)) :=
  [("HKEY_CURRENT_USER\\Software\\Wine\\Direct3D",
    [("CSMT", RegValue.str "enabled"), ("Renderer", RegValue.str "opengl"),
     ("VideoMemorySize", RegValue.int 4096)]),
   ("HKEY_CURRENT_USER\\Software\\Adobe\\Premiere Pro\\14.0",
    [("GPU Acceleration", RegValue.int 1), ("CUDA", RegValue.int 1),
     ("OpenCL", RegValue.int 1)])]

/-- Embedding of `AdobePremiereInstaller.install(installer_path)` (app_installers.py lines
130-154), instantiating the four-step body with the Premiere config. -/
def premiereInstall (ipath : String) (e : StepEnv) : Bool × List Step :=
  fourStepInstall ["libssl-dev", "libxss1", "libappindicator1"]
    ["dotnet48", "d3dx9", "d3dx10", "d3dx11", "corefonts"]
    premiereTweaks ipath e

/-- Embedding of the `install` body shared by the nine catalog-reachable
sudo-loop installers (audition, ableton, autocad, solidworks, fusion360,
visualstudio, jetbrains, unity, unreal; e.g.
`AdobeAuditionInstaller.install`, app_installers.py lines 336-354).  Their
system-dependency step is an inline `sudo apt install` subprocess loop
with no per-step catch: when the package list is nonempty and the spawn
fails, the exception propagates to the entry-level handler, which logs and
returns `false`, so the DLL, registry, and vendor steps are skipped.  When
the spawns succeed (their exit codes are ignored, `check=False`), the
remaining internally guarded steps run as in the four-step body. -/
def sudoLoopInstall (sysPkgs dllList : List String)
    (tweaks : List (String × List (String × RegValue))) (ipath : String)
    (e : StepEnv) : Bool × List Step :=
  if !sysPkgs.isEmpty && !e.aptSpawnOk then
    (false, [Step.sysDeps])
  else
    let _r2 := install_required_dlls dllList e
    let _r3 := configure_registry tweaks e
    if e.installerPathExists then
      let _r4 := run_with_wine ipath e
      (true, [Step.sysDeps, Step.dlls, Step.registry, Step.vendorRun])
    else
      (true, [Step.sysDeps, Step.dlls, Step.registry])

/-- The registry tweaks of `AdobeAuditionInstaller.CONFIG` (app_installers.py
lines 320-325). -/
def auditionTweaks : List (String × List (String × RegValue)) :=
  [("HKEY_CURRENT_USER\\Software\\Adobe\\Audition\\2024",
    [("HardwareAcceleration", RegValue.int 1),
     ("AudioBufferSize", RegValue.int 512)])]

/-- Embedding of `AdobeAuditionInstaller.install(installer_path)`
(app_installers.py lines 336-354), instantiating the sudo-loop body with
the Audition config. -/
def auditionInstall (ipath : String) (e : StepEnv) : Bool × List Step :=
  sudoLoopInstall ["libpulse-dev", "libasound2-dev", "libsndfile1-dev"]
    ["dotnet48", "d3dx9", "d3dx11", "corefonts", "vcrun2019"]
    auditionTweaks ipath e

/-- Embedding of the `install` body of the seven path-less installers that
execute no step (figma, googledrive, grammarly, wordpress, notion, vobsub,
hwmonitor; e.g. `FigmaInstaller.install`, app_installers.py lines
1337-1343): print a message and return `true`. -/
def noStepInstall (_e : StepEnv) : Bool × List Step := (true, [])

/-- Embedding of `FigmaInstaller.install` (catalog key `figma`). -/
def figmaInstall (e : StepEnv) : Bool × List Step := noStepInstall e

/-- A step-outcome oracle on which the package-manager (`sudo`) spawn fails
but every other interaction succeeds and the vendor installer path
exists. -/
def envSudoFail : StepEnv := ⟨false, 1, true, true, true, true, 0, true⟩

/-! ## CLI install command (winpatable.py, cmd_install_app and main) -/

theorem resolveLoop_nil (deps : List (String × List String)) (fuel : Nat)
    (ordered : List String) : resolveLoop deps fuel ordered [] = some ordered := by
  cases fuel <;> rfl

theorem passStep_cycle :
    passStep specCycleGraph ["a", "b"] [] ["a", "b"] = ([], ["a", "b"]) := by
  decide

/-- C1: on the spec synthetic cyclic graph with request `{a, b}`, the
resolver loop of `suggest_installation_order` makes no progress in any
iteration and therefore never terminates, for every iteration bound; in
particular it never raises any `CyclicDependency` error (no such error
exists anywhere in the repository). -/
theorem resolver_cycle_loops_forever :
    ∀ fuel : Nat, resolveLoop specCycleGraph fuel [] ["a", "b"] = none := by
  intro fuel
  induction fuel with
  | zero => rfl
  | succ n ih =>
      have hstep : resolveLoop specCycleGraph (n + 1) [] ["a", "b"] =
          resolveLoop specCycleGraph n (passStep specCycleGraph ["a", "b"] [] ["a", "b"]).1
            (passStep specCycleGraph ["a", "b"] [] ["a", "b"]).2 := rfl
      rw [hstep, passStep_cycle]
      exact ih

theorem mem_dedupFirstAux (l : List String) :
    ∀ (seen : List String) (x : String),
      x ∈ dedupFirstAux seen l ↔ x ∈ l ∧ x ∉ seen := by
  induction l with
  | nil => intro seen x; simp [dedupFirstAux]
  | cons a t ih =>
      intro seen x
      by_cases h : a ∈ seen
      · have hu : dedupFirstAux seen (a :: t) = dedupFirstAux seen t := by
          simp [dedupFirstAux, h]
        rw [hu, ih]
        constructor
        · rintro ⟨hx, hs⟩; exact ⟨List.mem_cons_of_mem a hx, hs⟩
        · rintro ⟨hx, hs⟩
          rcases List.mem_cons.mp hx with hx1 | hx2
          · exact absurd (hx1 ▸ h) hs
          · exact ⟨hx2, hs⟩
      · have hu : dedupFirstAux seen (a :: t) = a :: dedupFirstAux (a :: seen) t := by
          simp [dedupFirstAux, h]
        rw [hu]
        constructor
        · intro hx
          rcases List.mem_cons.mp hx with hx1 | hx2
          · exact ⟨hx1 ▸ List.mem_cons_self a t, hx1 ▸ h⟩
          · rcases (ih (a :: seen) x).mp hx2 with ⟨hxt, hxs⟩
            exact ⟨List.mem_cons_of_mem a hxt,
              fun hc => hxs (List.mem_cons_of_mem a hc)⟩
        · rintro ⟨hx, hs⟩
          by_cases hxa : x = a
          · exact hxa ▸ List.mem_cons_self a _
          · rcases List.mem_cons.mp hx with hx1 | hx2
            · exact absurd hx1 hxa
            · refine List.mem_cons_of_mem a ((ih (a :: seen) x).mpr ⟨hx2, ?_⟩)
              intro hc
              rcases List.mem_cons.mp hc with h1 | h2
              · exact hxa h1
              · exact hs h2

theorem nodup_dedupFirstAux (l : List String) :
    ∀ seen : List String, (dedupFirstAux seen l).Nodup := by
  induction l with
  | nil => intro seen; simp [dedupFirstAux]
  | cons a t ih =>
      intro seen
      by_cases h : a ∈ seen
      · simpa [dedupFirstAux, if_pos h] using ih seen
      · have hu : dedupFirstAux seen (a :: t) = a :: dedupFirstAux (a :: seen) t := by
          simp [dedupFirstAux, h]
        rw [hu]
        refine List.Nodup.cons ?_ (ih (a :: seen))
        intro hmem
        exact ((mem_dedupFirstAux t (a :: seen) a).mp hmem).2 (List.mem_cons_self a seen)

theorem mem_pySet (l : List String) (x : String) : x ∈ pySet l ↔ x ∈ l := by
  simp [pySet, mem_dedupFirstAux]

theorem nodup_pySet (l : List String) : (pySet l).Nodup := nodup_dedupFirstAux l []

theorem idxOfS_lt_length (l : List String) (x : String) (h : x ∈ l) :
    idxOfS l x < l.length := by
  induction l with
  | nil => cases h
  | cons a t ih =>
      by_cases hax : a = x
      · simp [idxOfS, hax]
      · rcases List.mem_cons.mp h with h1 | h2
        · exact absurd h1.symm hax
        · simpa [idxOfS, hax] using ih h2

theorem idxOfS_append_left (l l2 : List String) (x : String) (h : x ∈ l) :
    idxOfS (l ++ l2) x = idxOfS l x := by
  induction l with
  | nil => cases h
  | cons a t ih =>
      by_cases hax : a = x
      · simp [idxOfS, hax]
      · rcases List.mem_cons.mp h with h1 | h2
        · exact absurd h1.symm hax
        · simp [idxOfS, hax, ih h2]

theorem idxOfS_append_self (l : List String) (x : String) (h : x ∉ l) :
    idxOfS (l ++ [x]) x = l.length := by
  induction l with
  | nil => simp [idxOfS]
  | cons a t ih =>
      have hax : a ≠ x := fun hc => h (hc ▸ List.mem_cons_self a t)
      have hxt : x ∉ t := fun hc => h (List.mem_cons_of_mem a hc)
      simp [idxOfS, hax, ih hxt]

theorem passStep_inv (deps : List (String × List String)) (req : List String)
    (hreq : req.Nodup) :
    ∀ (snap ordered remaining : List String),
      snap.Nodup → (∀ x ∈ snap, x ∈ remaining) →
      (ordered ++ remaining).Perm req →
      DepsRespected deps req ordered →
      ((passStep deps snap ordered remaining).1 ++
        (passStep deps snap ordered remaining).2).Perm req ∧
      DepsRespected deps req (passStep deps snap ordered remaining).1 := by
  intro snap
  induction snap with
  | nil => intro ordered remaining _ _ hperm hok; exact ⟨hperm, hok⟩
  | cons a rest ih =>
      intro ordered remaining hsnap hsub hperm hok
      have hnd : (ordered ++ remaining).Nodup :=
        (hperm.nodup_iff).mpr hreq
      have hndParts := List.nodup_append.mp hnd
      have haRem : a ∈ remaining := hsub a (List.mem_cons_self a rest)
      have hrestNd : rest.Nodup := (List.nodup_cons.mp hsnap).2
      have haRest : a ∉ rest := (List.nodup_cons.mp hsnap).1
      by_cases helig : ∀ d ∈ depsGet deps a, d ∈ ordered ∨ d ∉ remaining
      · have hstep : passStep deps (a :: rest) ordered remaining =
            passStep deps rest (ordered ++ [a]) (remaining.erase a) := by
          simp only [passStep]
          rw [if_pos helig]
        rw [hstep]
        have haOrd : a ∉ ordered := fun hc => hndParts.2.2 hc haRem
        have hpermRem : remaining.Perm (a :: remaining.erase a) :=
          List.perm_cons_erase haRem
        have hperm2 : ((ordered ++ [a]) ++ remaining.erase a).Perm req := by
          rw [List.append_assoc]
          have h1 : ([a] ++ remaining.erase a) = a :: remaining.erase a := rfl
          rw [h1]
          exact ((List.Perm.append_left ordered hpermRem.symm).trans hperm)
        have hok2 : DepsRespected deps req (ordered ++ [a]) := by
          intro e he d hd hdreq
          rcases List.mem_append.mp he with heo | hea
          · rcases hok e heo d hd hdreq with ⟨hdo, hlt⟩
            refine ⟨List.mem_append_left _ hdo, ?_⟩
            rw [idxOfS_append_left _ _ _ hdo, idxOfS_append_left _ _ _ heo]
            exact hlt
          · have hea2 : e = a := by simpa using hea
            subst hea2
            have hdo : d ∈ ordered := by
              rcases helig d hd with h1 | h1
              · exact h1
              · have : d ∈ ordered ++ remaining := (hperm.mem_iff).mpr hdreq
                rcases List.mem_append.mp this with h2 | h2
                · exact h2
                · exact absurd h2 h1
            refine ⟨List.mem_append_left _ hdo, ?_⟩
            rw [idxOfS_append_left _ _ _ hdo, idxOfS_append_self _ _ haOrd]
            exact idxOfS_lt_length _ _ hdo
        refine ih (ordered ++ [a]) (remaining.erase a) hrestNd ?_ hperm2 hok2
        intro x hx
        have hxa : x ≠ a := fun hc => haRest (hc ▸ hx)
        exact (List.mem_erase_of_ne hxa).mpr (hsub x (List.mem_cons_of_mem a hx))
      · have hstep : passStep deps (a :: rest) ordered remaining =
            passStep deps rest ordered remaining := by
          simp only [passStep]
          rw [if_neg helig]
        rw [hstep]
        refine ih ordered remaining hrestNd ?_ hperm hok
        intro x hx
        exact hsub x (List.mem_cons_of_mem a hx)

theorem resolveLoop_inv (deps : List (String × List String)) (req : List String)
    (hreq : req.Nodup) :
    ∀ (fuel : Nat) (ordered remaining out : List String),
      (ordered ++ remaining).Perm req →
      DepsRespected deps req ordered →
      resolveLoop deps fuel ordered remaining = some out →
      out.Perm req ∧ DepsRespected deps req out := by
  intro fuel
  induction fuel with
  | zero =>
      intro ordered remaining out hperm hok h
      cases remaining with
      | nil =>
          have hout : ordered = out := by
            simpa [resolveLoop] using h
          subst hout
          exact ⟨by simpa using hperm, hok⟩
      | cons a t => simp [resolveLoop] at h
  | succ n ih =>
      intro ordered remaining out hperm hok h
      cases remaining with
      | nil =>
          have hout : ordered = out := by
            simpa [resolveLoop] using h
          subst hout
          exact ⟨by simpa using hperm, hok⟩
      | cons a t =>
          have hnd : (ordered ++ a :: t).Nodup := (hperm.nodup_iff).mpr hreq
          have hremNd : (a :: t).Nodup := (List.nodup_append.mp hnd).2.1
          have hinv := passStep_inv deps req hreq (a :: t) ordered (a :: t)
            hremNd (fun x hx => hx) hperm hok
          have hstep : resolveLoop deps (n + 1) ordered (a :: t) =
              resolveLoop deps n (passStep deps (a :: t) ordered (a :: t)).1
                (passStep deps (a :: t) ordered (a :: t)).2 := rfl
          rw [hstep] at h
          exact ih _ _ _ hinv.1 hinv.2 h

theorem resolveLoop_mono (deps : List (String × List String)) :
    ∀ (f g : Nat) (ordered remaining out : List String), f ≤ g →
      resolveLoop deps f ordered remaining = some out →
      resolveLoop deps g ordered remaining = some out := by
  intro f
  induction f with
  | zero =>
      intro g ordered remaining out _ h
      cases remaining with
      | nil =>
          rw [resolveLoop_nil] at h
          rw [resolveLoop_nil]
          exact h
      | cons a t => simp [resolveLoop] at h
  | succ n ih =>
      intro g ordered remaining out hle h
      cases remaining with
      | nil =>
          rw [resolveLoop_nil] at h
          rw [resolveLoop_nil]
          exact h
      | cons a t =>
          cases g with
          | zero => omega
          | succ m =>
              have hstep : resolveLoop deps (n + 1) ordered (a :: t) =
                  resolveLoop deps n (passStep deps (a :: t) ordered (a :: t)).1
                    (passStep deps (a :: t) ordered (a :: t)).2 := rfl
              have hstep2 : resolveLoop deps (m + 1) ordered (a :: t) =
                  resolveLoop deps m (passStep deps (a :: t) ordered (a :: t)).1
                    (passStep deps (a :: t) ordered (a :: t)).2 := rfl
              rw [hstep] at h
              rw [hstep2]
              exact ih m _ _ _ (by omega) h

/-- C2: whenever the resolver terminates on a request, every declared
dependency `d` of a requested key `e`, with both keys present in the
request, is placed strictly before `e` in the output order. -/
theorem resolver_respects_dependencies (fuel : Nat) (apps out : List String)
    (d e : String) (h : suggest_installation_order fuel apps = some out)
    (he : e ∈ apps) (hd : d ∈ apps)
    (hdep : d ∈ depsGet winpatableDepsTable e) :
    idxOfS out d < idxOfS out e := by
  have hinv := resolveLoop_inv winpatableDepsTable (pySet apps) (nodup_pySet apps)
    fuel [] (pySet apps) out (by simpa using List.Perm.refl (pySet apps))
    (fun e2 he2 => absurd he2 (List.not_mem_nil e2)) h
  have heOut : e ∈ out := (hinv.1.mem_iff).mpr ((mem_pySet apps e).mpr he)
  have hdReq : d ∈ pySet apps := (mem_pySet apps d).mpr hd
  exact (hinv.2 e heOut d hdep hdReq).2

/-- C2 witness: requesting `visio` then `office` (where `visio` declares a
dependency on `office`) orders `office` strictly before `visio`. -/
theorem resolver_respects_dependencies_witness :
    idxOfS ["office", "visio"] "office" < idxOfS ["office", "visio"] "visio" :=
  resolver_respects_dependencies 2 ["visio", "office"] ["office", "visio"]
    "office" "visio" (by decide) (by decide) (by decide) (by decide)

/-- C10: whenever the resolver terminates, its output lists each requested
key exactly once (the output is duplicate-free and has exactly the
requested keys as members); no unrequested prerequisite is added. -/
theorem resolver_output_permutes_request (fuel : Nat) (apps out : List String)
    (h : suggest_installation_order fuel apps = some out) :
    out.Nodup ∧ (∀ k, k ∈ out ↔ k ∈ apps) := by
  have hinv := resolveLoop_inv winpatableDepsTable (pySet apps) (nodup_pySet apps)
    fuel [] (pySet apps) out (by simpa using List.Perm.refl (pySet apps))
    (fun e2 he2 => absurd he2 (List.not_mem_nil e2)) h
  constructor
  · exact (hinv.1.nodup_iff).mpr (nodup_pySet apps)
  · intro k
    rw [hinv.1.mem_iff]
    exact mem_pySet apps k

/-- C10 witness: the request `[visio, office, office]` resolves to
`[office, visio]`, a duplicate-free list with exactly the requested keys. -/
theorem resolver_output_permutes_request_witness :
    (["office", "visio"] : List String).Nodup ∧
      (∀ k, k ∈ (["office", "visio"] : List String) ↔
        k ∈ (["visio", "office", "office"] : List String)) :=
  resolver_output_permutes_request 2 ["visio", "office", "office"]
    ["office", "visio"] (by decide)

/-- C9: the resolver is a deterministic function of the request: any two
terminating runs on the same request (with any iteration budgets) produce
the same output order. -/
theorem resolver_deterministic (apps : List String) (f1 f2 : Nat)
    (o1 o2 : List String) (h1 : suggest_installation_order f1 apps = some o1)
    (h2 : suggest_installation_order f2 apps = some o2) : o1 = o2 := by
  rw [suggest_installation_order] at h1 h2
  rcases Nat.le_total f1 f2 with hle | hle
  · have h3 := resolveLoop_mono winpatableDepsTable f1 f2 [] (pySet apps) o1 hle h1
    rw [h2] at h3
    exact (Option.some.inj h3).symm
  · have h3 := resolveLoop_mono winpatableDepsTable f2 f1 [] (pySet apps) o2 hle h2
    rw [h1] at h3
    exact Option.some.inj h3

/-- C9 witness: two runs on the request `[visio, office]`, with different
iteration budgets, produce the same order. -/
theorem resolver_deterministic_witness :
    (["office", "visio"] : List String) = ["office", "visio"] :=
  resolver_deterministic ["visio", "office"] 2 5 ["office", "visio"]
    ["office", "visio"] (by decide) (by decide)

/-! ## Registry serialization theorems (C3) -/

theorem hexDigitChar_isHexLower : ∀ m, m < 16 → isHexLowerChar (hexDigitChar m) = true := by
  decide

theorem hexCharsAux_length :
    ∀ (fuel n k : Nat), n < 16 ^ k → (hexCharsAux fuel n).length ≤ k := by
  intro fuel
  induction fuel with
  | zero => intro n k _; simp [hexCharsAux]
  | succ f ih =>
      intro n k h
      by_cases hn : n = 0
      · simp [hexCharsAux, hn]
      · have hu : hexCharsAux (f + 1) n =
            hexCharsAux f (n / 16) ++ [hexDigitChar (n % 16)] := by
          simp [hexCharsAux, hn]
        rw [hu]
        cases k with
        | zero =>
            exfalso
            have : n < 1 := by simpa using h
            omega
        | succ k2 =>
            have hdiv : n / 16 < 16 ^ k2 := by
              have h16 : (0 : Nat) < 16 := by norm_num
              rw [Nat.div_lt_iff_lt_mul h16]
              calc n < 16 ^ (k2 + 1) := h
                _ = 16 ^ k2 * 16 := by rw [pow_succ]
            have := ih (n / 16) k2 hdiv
            simp only [List.length_append, List.length_cons, List.length_nil]
            omega

theorem hexCharsAux_isHexLower :
    ∀ (fuel n : Nat), ∀ c ∈ hexCharsAux fuel n, isHexLowerChar c = true := by
  intro fuel
  induction fuel with
  | zero => intro n c hc; simp [hexCharsAux] at hc
  | succ f ih =>
      intro n c hc
      by_cases hn : n = 0
      · simp [hexCharsAux, hn] at hc
      · have hu : hexCharsAux (f + 1) n =
            hexCharsAux f (n / 16) ++ [hexDigitChar (n % 16)] := by
          simp [hexCharsAux, hn]
        rw [hu] at hc
        rcases List.mem_append.mp hc with hc1 | hc2
        · exact ih (n / 16) c hc1
        · have hceq : c = hexDigitChar (n % 16) := by simpa using hc2
          exact hceq ▸ hexDigitChar_isHexLower (n % 16) (Nat.mod_lt n (by norm_num))

theorem mem_regBody_of_mem_section (p : String) (vs : List (String × RegValue))
    (x : String) :
    ∀ tweaks : List (String × List (String × RegValue)),
      (p, vs) ∈ tweaks → x ∈ sectionLines p vs → x ∈ regBody tweaks := by
  intro tweaks
  induction tweaks with
  | nil => intro h; cases h
  | cons hd t ih =>
      intro hmem hx
      rcases List.mem_cons.mp hmem with h1 | h2
      · subst h1
        show x ∈ sectionLines p vs ++ regBody t
        exact List.mem_append_left _ hx
      · rcases hd with ⟨q, ws⟩
        have : regBody ((q, ws) :: t) = sectionLines q ws ++ regBody t := rfl
        rw [this]
        exact List.mem_append_right _ (ih h2 hx)

theorem pyFmt08x_nonneg_spec (n : Int) (h0 : 0 ≤ n) (hlt : n < 4294967296) :
    (pyFmt08x n).length = 8 ∧ (pyFmt08x n).data.all isHexLowerChar = true := by
  have hneg : ¬ n < 0 := by omega
  have hfmt : pyFmt08x n = String.mk (padZeros 8 (hexChars n.toNat)) := by
    rw [pyFmt08x, if_neg hneg]
  have htn : n.toNat < 4294967296 := by omega
  have hpow : n.toNat < 16 ^ 8 := by
    have : (16 : Nat) ^ 8 = 4294967296 := by norm_num
    omega
  have hlen : (hexChars n.toNat).length ≤ 8 :=
    hexCharsAux_length (n.toNat + 1) n.toNat 8 hpow
  constructor
  · rw [hfmt]
    show (padZeros 8 (hexChars n.toNat)).length = 8
    rw [padZeros, List.length_append, List.length_replicate]
    omega
  · rw [hfmt]
    show (padZeros 8 (hexChars n.toNat)).all isHexLowerChar = true
    rw [List.all_eq_true]
    intro c hc
    rcases List.mem_append.mp hc with hc1 | hc2
    · have : c = '0' := List.eq_of_mem_replicate hc1
      rw [this]
      decide
    · exact hexCharsAux_isHexLower _ _ c hc2

/-- C3 (amended): the emitted registry text starts with the `REGEDIT4`
header and a blank line, contains a bracketed line for every registry path,
a `"name"="value"` line for every string value, and, for every integer
value in the unsigned 32-bit range, a `"name"=dword:` line whose digit part
is exactly 8 lowercase hexadecimal digits; integers outside that range are
emitted with more than 8 digits (see the counterexample). -/
theorem configure_registry_emits_regedit4_format
    (tweaks : List (String × List (String × RegValue))) :
    (regLines tweaks).take 2 = ["REGEDIT4", ""] ∧
    (∀ p vs, (p, vs) ∈ tweaks → ("[" ++ p ++ "]") ∈ regLines tweaks) ∧
    (∀ p vs k s, (p, vs) ∈ tweaks → (k, RegValue.str s) ∈ vs →
      ("\"" ++ k ++ "\"=\"" ++ s ++ "\"") ∈ regLines tweaks) ∧
    (∀ p vs k n, (p, vs) ∈ tweaks → (k, RegValue.int n) ∈ vs →
      0 ≤ n → n < 4294967296 →
      ("\"" ++ k ++ "\"=dword:" ++ pyFmt08x n) ∈ regLines tweaks ∧
      (pyFmt08x n).length = 8 ∧ (pyFmt08x n).data.all isHexLowerChar = true) := by
  refine ⟨rfl, ?_, ?_, ?_⟩
  · intro p vs hp
    have hx : ("[" ++ p ++ "]") ∈ sectionLines p vs := List.mem_cons_self _ _
    exact List.mem_cons_of_mem _ (List.mem_cons_of_mem _
      (mem_regBody_of_mem_section p vs _ tweaks hp hx))
  · intro p vs k s hp hkv
    have hline : valueLine k (RegValue.str s) ∈ sectionLines p vs := by
      refine List.mem_cons_of_mem _ ?_
      exact List.mem_map_of_mem (fun kv => valueLine kv.1 kv.2) hkv
    exact List.mem_cons_of_mem _ (List.mem_cons_of_mem _
      (mem_regBody_of_mem_section p vs _ tweaks hp hline))
  · intro p vs k n hp hkv h0 hlt
    have hline : valueLine k (RegValue.int n) ∈ sectionLines p vs := by
      refine List.mem_cons_of_mem _ ?_
      exact List.mem_map_of_mem (fun kv => valueLine kv.1 kv.2) hkv
    refine ⟨List.mem_cons_of_mem _ (List.mem_cons_of_mem _
      (mem_regBody_of_mem_section p vs _ tweaks hp hline)), ?_⟩
    exact pyFmt08x_nonneg_spec n h0 hlt

/-- C3 counterexample: the integer value `2 ^ 32` is emitted as
`dword:100000000`, whose digit part has 9 characters, not exactly 8; the
source pads to at least 8 digits but never truncates. -/
theorem configure_registry_dword_width_counterexample :
    regLines [("HKEY_CURRENT_USER\\X", [("Big", RegValue.int 4294967296)])] =
      ["REGEDIT4", "", "[HKEY_CURRENT_USER\\X]", "\"Big\"=dword:100000000"] ∧
    ("100000000" : String).length ≠ 8 := by
  constructor
  · decide
  · decide

/-- C3 witness: on the spec example input, the emitted lines include
`"Flag"=dword:00000001` and `"Mode"="opengl"`. -/
theorem configure_registry_format_witness :
    ("\"Flag\"=dword:00000001" : String) ∈
      regLines [("HKEY_CURRENT_USER\\X",
        [("Flag", RegValue.int 1), ("Mode", RegValue.str "opengl")])] ∧
    ("\"Mode\"=\"opengl\"" : String) ∈
      regLines [("HKEY_CURRENT_USER\\X",
        [("Flag", RegValue.int 1), ("Mode", RegValue.str "opengl")])] := by
  constructor
  · have h := ((configure_registry_emits_regedit4_format
      [("HKEY_CURRENT_USER\\X",
        [("Flag", RegValue.int 1), ("Mode", RegValue.str "opengl")])]).2.2.2
      "HKEY_CURRENT_USER\\X" [("Flag", RegValue.int 1), ("Mode", RegValue.str "opengl")]
      "Flag" 1 (by decide) (by decide) (by decide) (by decide)).1
    have he : ("\"" ++ "Flag" ++ "\"=dword:" ++ pyFmt08x 1) =
        ("\"Flag\"=dword:00000001" : String) := by decide
    rw [he] at h
    exact h
  · have h := (configure_registry_emits_regedit4_format
      [("HKEY_CURRENT_USER\\X",
        [("Flag", RegValue.int 1), ("Mode", RegValue.str "opengl")])]).2.2.1
      "HKEY_CURRENT_USER\\X" [("Flag", RegValue.int 1), ("Mode", RegValue.str "opengl")]
      "Mode" "opengl" (by decide) (by decide)
    have he : ("\"" ++ "Mode" ++ "\"=\"" ++ "opengl" ++ "\"") =
        ("\"Mode\"=\"opengl\"" : String) := by decide
    rw [he] at h
    exact h

/-! ## Environment composer theorems (C4) -/

theorem applyPairs_spec (l : List (String × String)) :
    ∀ (e : String → Option String) (k : String),
      applyPairs e l k =
        match lookupLast l k with
        | some w => some w
        | none => e k := by
  induction l with
  | nil => intro e k; rfl
  | cons hd t ih =>
      intro e k
      rcases hd with ⟨a, v⟩
      have hl : applyPairs e ((a, v) :: t) k = applyPairs (setVar e a v) t k := rfl
      rw [hl, ih]
      have hr : lookupLast ((a, v) :: t) k =
          match lookupLast t k with
          | some w => some w
          | none => if a = k then some v else none := rfl
      rw [hr]
      rcases hlt : lookupLast t k with _ | w
      · by_cases hak : a = k
        · subst hak
          simp [setVar]
        · have hka : ¬ k = a := fun hc => hak hc.symm
          simp [setVar, hak, hka]
      · simp

/-- C4 (amended): the composed environment maps every key other than `PATH`
through the three layers with later layers winning — the application
overlay value when the key is assigned there, else the baseline value when
the key is a baseline key, else the process-environment value — and it has
no effect beyond the returned mapping.  `PATH` follows the same rule only
when the `proton` directory under the prefix does not exist; when it
exists, the directory is prepended (colon-separated) to the value the
layers gave `PATH` (empty default). -/
theorem setup_environment_precedence (procEnv : String → Option String)
    (pfx : String) (overlay : List (String × String)) (protonEx : Bool)
    (k : String) :
    (k ≠ "PATH" ∨ protonEx = false →
      setup_environment procEnv pfx overlay protonEx k =
        match lookupLast overlay k with
        | some w => some w
        | none =>
          match lookupLast (launcherBaseline pfx) k with
          | some w => some w
          | none => procEnv k) ∧
    (protonEx = true →
      setup_environment procEnv pfx overlay protonEx "PATH" =
        some (pfx ++ "/proton:" ++
          (match lookupLast overlay "PATH" with
           | some w => some w
           | none =>
             match lookupLast (launcherBaseline pfx) "PATH" with
             | some w => some w
             | none => procEnv "PATH").getD "")) := by
  constructor
  · intro hk
    rcases hk with hk | hk
    · cases hpe : protonEx
      · show applyPairs (applyPairs procEnv (launcherBaseline pfx)) overlay k = _
        rw [applyPairs_spec, applyPairs_spec]
      · show setVar (applyPairs (applyPairs procEnv (launcherBaseline pfx)) overlay)
            "PATH" _ k = _
        rw [setVar, if_neg hk, applyPairs_spec, applyPairs_spec]
    · subst hk
      show applyPairs (applyPairs procEnv (launcherBaseline pfx)) overlay k = _
      rw [applyPairs_spec, applyPairs_spec]
  · intro hpe
    subst hpe
    show setVar (applyPairs (applyPairs procEnv (launcherBaseline pfx)) overlay)
        "PATH" (pfx ++ "/proton:" ++
          (applyPairs (applyPairs procEnv (launcherBaseline pfx)) overlay "PATH").getD "")
        "PATH" = _
    rw [setVar, if_pos rfl, applyPairs_spec, applyPairs_spec]

/-- C4 counterexample: with a process environment mapping `PATH` to
`/usr/bin`, an empty application overlay, and the prefix proton directory
existing on disk, the composed environment maps `PATH` — a key that is
neither a baseline key nor an overlay key — to `/pfx/proton:/usr/bin`
rather than to its process-environment value. -/
theorem setup_environment_path_counterexample :
    setup_environment (fun x => if x = "PATH" then some "/usr/bin" else none)
      "/pfx" [] true "PATH" = some "/pfx/proton:/usr/bin" ∧
    (fun x => if x = "PATH" then some "/usr/bin" else none) "PATH" =
      some "/usr/bin" ∧
    some "/pfx/proton:/usr/bin" ≠ some "/usr/bin" ∧
    "PATH" ∉ (launcherBaseline "/pfx").map Prod.fst := by
  refine ⟨by decide, rfl, by decide, by decide⟩

/-- C4 witness: with overlay assignments to the baseline key `DXVK_HUD` and
to a fresh key `B`, and no proton directory, the overlay wins on
`DXVK_HUD`, the baseline supplies `WINEARCH`, and an untouched key `HOME`
keeps its process-environment value. -/
theorem setup_environment_precedence_witness :
    setup_environment (fun x => if x = "HOME" then some "/root" else none)
      "/pfx" [("DXVK_HUD", "full"), ("B", "3")] false "DXVK_HUD" = some "full" ∧
    setup_environment (fun x => if x = "HOME" then some "/root" else none)
      "/pfx" [("DXVK_HUD", "full"), ("B", "3")] false "WINEARCH" = some "win64" ∧
    setup_environment (fun x => if x = "HOME" then some "/root" else none)
      "/pfx" [("DXVK_HUD", "full"), ("B", "3")] false "HOME" = some "/root" := by
  refine ⟨?_, ?_, ?_⟩
  · have h := (setup_environment_precedence
      (fun x => if x = "HOME" then some "/root" else none)
      "/pfx" [("DXVK_HUD", "full"), ("B", "3")] false "DXVK_HUD").1 (Or.inr rfl)
    rw [h]
    decide
  · have h := (setup_environment_precedence
      (fun x => if x = "HOME" then some "/root" else none)
      "/pfx" [("DXVK_HUD", "full"), ("B", "3")] false "WINEARCH").1 (Or.inr rfl)
    rw [h]
    decide
  · have h := (setup_environment_precedence
      (fun x => if x = "HOME" then some "/root" else none)
      "/pfx" [("DXVK_HUD", "full"), ("B", "3")] false "HOME").1 (Or.inr rfl)
    rw [h]
    decide

/-! ## Catalog lookup theorems (C5) -/

/-- C5 (amended): catalog lookup is case-insensitive (inputs with the same
lowercasing are indistinguishable) and never raises; for an absent key it
returns no installer and performs no effect; for a present key, however,
constructing the returned installer creates the applications directory
under the prefix (`mkdir(parents=True, exist_ok=True)` in
`ApplicationInstaller.__init__`), so a successful lookup is not free of
filesystem effects. -/
theorem get_installer_lookup (pfx s : String) :
    ((get_installer pfx s).1 = none ↔ asciiLower s ∉ APPLICATIONS_KEYS) ∧
    (asciiLower s ∉ APPLICATIONS_KEYS → get_installer pfx s = (none, [])) ∧
    (asciiLower s ∈ APPLICATIONS_KEYS →
      get_installer pfx s =
        (some (asciiLower s), [Effect.mkdirAll (pfx ++ "/applications")])) ∧
    (∀ t, asciiLower s = asciiLower t →
      get_installer pfx s = get_installer pfx t) := by
  refine ⟨?_, ?_, ?_, ?_⟩
  · by_cases h : asciiLower s ∈ APPLICATIONS_KEYS
    · simp [get_installer, h]
    · simp [get_installer, h]
  · intro h
    simp [get_installer, h]
  · intro h
    simp [get_installer, h]
  · intro t ht
    rw [get_installer, get_installer, ht]

/-- C5 counterexample: looking up the present key `premiere` performs a
directory-creation effect (the prefix applications directory), so lookup of
a present key is not pure data access. -/
theorem get_installer_mkdir_counterexample :
    (get_installer "/pfx" "premiere").2 = [Effect.mkdirAll "/pfx/applications"] ∧
    (get_installer "/pfx" "premiere").2 ≠ [] := by
  refine ⟨by decide, by decide⟩

/-- C5 witness: the uppercase input `PREMIERE` finds the `premiere` entry,
with the directory-creation effect. -/
theorem get_installer_lookup_witness :
    get_installer "/pfx" "PREMIERE" =
      (some "premiere", [Effect.mkdirAll "/pfx/applications"]) := by
  have h := (get_installer_lookup "/pfx" "PREMIERE").2.2.1 (by decide)
  rw [h]
  decide

/-! ## CLI install command theorems (C6) -/

/-- C7 (amended): the fifteen guarded four-step installers (premiere, vegas,
3dsmax, office, photoshop, lightroom, illustrator, aftereffects, revit,
sketchbook, coreldraw, corelpainter, teams, copilot, access) execute their
steps in the fixed order system packages, DLLs, registry, vendor installer
— the vendor step exactly when the supplied path exists — and the executed
sequence is independent of every step outcome, because each of their steps
catches its own errors.  The nine sudo-loop installers (audition, ableton,
autocad, solidworks, fusion360, visualstudio, jetbrains, unity, unreal)
follow the same fixed order only while their unguarded first step does not
raise: a spawn failure there aborts the remaining steps of the entry.  The
path-less installers execute at most the DLL step, seven of them no step
at all. -/
theorem fourStep_install_order_resilient (sysPkgs dllList : List String)
    (tweaks : List (String × List (String × RegValue))) (ipath : String)
    (e : StepEnv) (h : e.installerPathExists = true) :
    (fourStepInstall sysPkgs dllList tweaks ipath e).2 =
      [Step.sysDeps, Step.dlls, Step.registry, Step.vendorRun] ∧
    (∀ e2 : StepEnv, e2.installerPathExists = true →
      (fourStepInstall sysPkgs dllList tweaks ipath e2).2 =
        (fourStepInstall sysPkgs dllList tweaks ipath e).2) ∧
    (e.aptSpawnOk = true →
      (sudoLoopInstall sysPkgs dllList tweaks ipath e).2 =
        [Step.sysDeps, Step.dlls, Step.registry, Step.vendorRun]) ∧
    (sysPkgs ≠ [] → e.aptSpawnOk = false →
      (sudoLoopInstall sysPkgs dllList tweaks ipath e).2 = [Step.sysDeps]) ∧
    (dllOnlyInstall dllList e).2 = [Step.dlls] ∧
    (noStepInstall e).2 = [] := by
  refine ⟨by simp [fourStepInstall, h], ?_, ?_, ?_, rfl, rfl⟩
  · intro e2 h2
    simp [fourStepInstall, h, h2]
  · intro hapt
    simp [sudoLoopInstall, hapt, h]
  · intro hne hapt
    rcases sysPkgs with _ | ⟨p, ps⟩
    · exact absurd rfl hne
    · simp [sudoLoopInstall, hapt]

/-- C7 counterexample: `AdobeAuditionInstaller.install` (catalog key
`audition`), run with a failing `sudo` spawn in its unguarded
system-dependency loop, returns `false` after the system-dependency step
alone — the DLL, registry, and vendor-installer steps are all skipped,
refuting both "executes the four steps" and "the failure of any one step
never aborts the remaining steps of the same entry". -/
theorem install_four_steps_counterexample :
    auditionInstall "setup.exe" envSudoFail = (false, [Step.sysDeps]) ∧
    Step.dlls ∉ (auditionInstall "setup.exe" envSudoFail).2 ∧
    Step.registry ∉ (auditionInstall "setup.exe" envSudoFail).2 ∧
    Step.vendorRun ∉ (auditionInstall "setup.exe" envSudoFail).2 := by
  refine ⟨by decide, by decide, by decide, by decide⟩

/-- C7 witness: the Premiere installer with an existing installer path runs
all four steps in order, unchanged when every external interaction fails;
the Audition installer aborts after its first step when the `sudo` spawn
fails. -/
theorem fourStep_install_order_witness :
    (fourStepInstall ["libssl-dev", "libxss1", "libappindicator1"]
      ["dotnet48", "d3dx9", "d3dx10", "d3dx11", "corefonts"]
      premiereTweaks "setup.exe" envAllOk).2 =
      [Step.sysDeps, Step.dlls, Step.registry, Step.vendorRun] ∧
    (fourStepInstall ["libssl-dev", "libxss1", "libappindicator1"]
      ["dotnet48", "d3dx9", "d3dx10", "d3dx11", "corefonts"]
      premiereTweaks "setup.exe" envAllFail).2 =
      (fourStepInstall ["libssl-dev", "libxss1", "libappindicator1"]
        ["dotnet48", "d3dx9", "d3dx10", "d3dx11", "corefonts"]
        premiereTweaks "setup.exe" envAllOk).2 ∧
    (sudoLoopInstall ["libpulse-dev", "libasound2-dev", "libsndfile1-dev"]
      ["dotnet48", "d3dx9", "d3dx11", "corefonts", "vcrun2019"]
      auditionTweaks "setup.exe" envSudoFail).2 = [Step.sysDeps] := by
  refine ⟨(fourStep_install_order_resilient _ _ _ _ envAllOk (by decide)).1, ?_, ?_⟩
  · exact (fourStep_install_order_resilient ["libssl-dev", "libxss1", "libappindicator1"]
      ["dotnet48", "d3dx9", "d3dx10", "d3dx11", "corefonts"]
      premiereTweaks "setup.exe" envAllOk (by decide)).2.1 envAllFail (by decide)
  · exact (fourStep_install_order_resilient ["libpulse-dev", "libasound2-dev", "libsndfile1-dev"]
      ["dotnet48", "d3dx9", "d3dx11", "corefonts", "vcrun2019"]
      auditionTweaks "setup.exe" envSudoFail (by decide)).2.2.2.1 (by decide) rfl

/-- C8 (amended): the guarded installers return `true` after attempting all
of their steps regardless of individual step outcomes — the four-step
family, the DLL-only family, and the no-step family — with two classes of
exceptions: `ValorantInstaller.install` attempts its DLL step and returns
`false` unconditionally, and the nine sudo-loop installers return `false`
having attempted only their first step when its unguarded `sudo` spawn
fails (when it succeeds they return `true` like the guarded family).
Wherever a vendor step exists it runs only when the supplied path exists,
and the vendor subprocess exit code is never interpreted. -/
theorem install_returns_attempted (sysPkgs dllList : List String)
    (tweaks : List (String × List (String × RegValue))) (ipath : String)
    (e : StepEnv) :
    (fourStepInstall sysPkgs dllList tweaks ipath e).1 = true ∧
    (dllOnlyInstall dllList e).1 = true ∧
    (noStepInstall e).1 = true ∧
    (valorantInstall e).1 = false ∧
    (e.aptSpawnOk = true →
      (sudoLoopInstall sysPkgs dllList tweaks ipath e).1 = true) ∧
    (sysPkgs ≠ [] → e.aptSpawnOk = false →
      (sudoLoopInstall sysPkgs dllList tweaks ipath e).1 = false) ∧
    (Step.vendorRun ∈ (fourStepInstall sysPkgs dllList tweaks ipath e).2 ↔
      e.installerPathExists = true) ∧
    (e.aptSpawnOk = true →
      (Step.vendorRun ∈ (sudoLoopInstall sysPkgs dllList tweaks ipath e).2 ↔
        e.installerPathExists = true)) ∧
    (∀ c1 c2 : Int,
      run_with_wine ipath
        ⟨e.aptSpawnOk, e.aptExitCode, e.winetricksSpawnOk, e.regWriteOk,
         e.regeditSpawnOk, e.wineSpawnOk, c1, e.installerPathExists⟩ =
      run_with_wine ipath
        ⟨e.aptSpawnOk, e.aptExitCode, e.winetricksSpawnOk, e.regWriteOk,
         e.regeditSpawnOk, e.wineSpawnOk, c2, e.installerPathExists⟩) ∧
    (∀ c : Int,
      fourStepInstall sysPkgs dllList tweaks ipath
        ⟨e.aptSpawnOk, e.aptExitCode, e.winetricksSpawnOk, e.regWriteOk,
         e.regeditSpawnOk, e.wineSpawnOk, c, e.installerPathExists⟩ =
      fourStepInstall sysPkgs dllList tweaks ipath e) ∧
    (∀ c : Int,
      sudoLoopInstall sysPkgs dllList tweaks ipath
        ⟨e.aptSpawnOk, e.aptExitCode, e.winetricksSpawnOk, e.regWriteOk,
         e.regeditSpawnOk, e.wineSpawnOk, c, e.installerPathExists⟩ =
      sudoLoopInstall sysPkgs dllList tweaks ipath e) := by
  refine ⟨?_, rfl, rfl, rfl, ?_, ?_, ?_, ?_, ?_, ?_, ?_⟩
  · rcases h : e.installerPathExists <;> simp [fourStepInstall, h]
  · intro hapt
    rcases h : e.installerPathExists <;> simp [sudoLoopInstall, hapt, h]
  · intro hne hapt
    rcases sysPkgs with _ | ⟨p, ps⟩
    · exact absurd rfl hne
    · simp [sudoLoopInstall, hapt]
  · rcases h : e.installerPathExists <;> simp [fourStepInstall, h]
  · intro hapt
    rcases h : e.installerPathExists <;> simp [sudoLoopInstall, hapt, h]
  · intro c1 c2
    rfl
  · intro c
    rcases h : e.installerPathExists <;> simp [fourStepInstall, h]
  · intro c
    rcases h : e.installerPathExists <;>
      rcases hapt : e.aptSpawnOk <;>
        simp [sudoLoopInstall, h, hapt]

/-- C8 counterexample: `ValorantInstaller.install` attempts its DLL step
(its whole step list) and nevertheless returns `false`, so an installer
returning `true` is not equivalent to all of its steps having been
attempted. -/
theorem install_return_value_counterexample :
    (valorantInstall envAllOk).2 = [Step.dlls] ∧
    (valorantInstall envAllOk).1 = false := by
  refine ⟨by decide, by decide⟩

/-- C8 witness: concrete instantiations — the four-step installer returns
`true` even when every external interaction fails; the Audition sudo-loop
installer returns `false` when the `sudo` spawn fails, having attempted
only its first step; the vendor step is in the four-step trace exactly
because the path exists. -/
theorem install_returns_attempted_witness :
    (fourStepInstall ["libssl-dev"] ["dotnet48"] [] "setup.exe" envAllFail).1 = true ∧
    (sudoLoopInstall ["libpulse-dev", "libasound2-dev", "libsndfile1-dev"]
      ["dotnet48", "d3dx9", "d3dx11", "corefonts", "vcrun2019"]
      auditionTweaks "setup.exe" envSudoFail).1 = false ∧
    (Step.vendorRun ∈
      (fourStepInstall ["libssl-dev"] ["dotnet48"] [] "setup.exe" envAllFail).2 ↔
      envAllFail.installerPathExists = true) := by
  refine ⟨(install_returns_attempted ["libssl-dev"] ["dotnet48"] [] "setup.exe"
    envAllFail).1, ?_, ?_⟩
  · exact (install_returns_attempted
      ["libpulse-dev", "libasound2-dev", "libsndfile1-dev"]
      ["dotnet48", "d3dx9", "d3dx11", "corefonts", "vcrun2019"]
      auditionTweaks "setup.exe" envSudoFail).2.2.2.2.2.1 (by decide) rfl
  · exact (install_returns_attempted ["libssl-dev"] ["dotnet48"] [] "setup.exe"
      envAllFail).2.2.2.2.2.2.1
